import Mathlib

/-!
Verification of the JSON-RPC connection/dispatch engine and the import
orchestration layer of the galaxy-integrations-python-api repository
(files src/galaxy/api/jsonrpc.py, src/galaxy/api/importer.py and
src/galaxy/task_manager.py), as a shallow embedding in Lean 4.

Conventions of the embedding:
  - JSON values produced by json.loads are modelled by `JsonV`; JSON numbers
    are modelled as integers (the protocol only uses integral numbers).
    Python None and JSON null share the constructor `JsonV.null`, exactly as
    json.loads maps null to None.
  - Python dicts are modelled as association lists with unique keys (what
    json.loads produces); lookups take the first match.
  - A Python exception of a class the surrounding code does not catch is
    modelled by a `PyExc` marker carried in the result.  In Connection.run
    the call self._handle_input(data) stands outside the try block, so such
    an exception terminates the read loop; a `crash` field that is `some e`
    therefore means the read loop dies.
  - asyncio futures are modelled by `FutureV`; calling set_result or
    set_exception on a future that is not pending raises InvalidStateError.
  - handlers registered on the Connection are collaborators: each is
    modelled by a binding predicate (the signature.bind success condition)
    and an outcome function (what the callback does on bound arguments).
-/

/-- Model of a JSON value as decoded by json.loads (numbers restricted to
integers, which is all the protocol uses). -/
inductive JsonV : Type where
  | null : JsonV
  | bool (b : Bool) : JsonV
  | num (n : Int) : JsonV
  | str (s : String) : JsonV
  | arr (elems : List JsonV) : JsonV
  | obj (fields : List (String × JsonV)) : JsonV

/-- Lookup of a key in a Python dict modelled as an association list. -/
def lookupKey (k : String) : List (String × JsonV) → Option JsonV
  | [] => none
  | (k₀, v) :: rest => if k₀ = k then some v else lookupKey k rest

/-- Lookup with a default, modelling dict.get(k, d) and the namedtuple field
defaults used when binding an envelope. -/
def getKeyD (fields : List (String × JsonV)) (k : String) (d : JsonV) : JsonV :=
  match lookupKey k fields with
  | some v => v
  | none => d

/-- Key-membership test, modelling the expression k in dict.keys(). -/
def hasKey (k : String) (fields : List (String × JsonV)) : Bool :=
  match lookupKey k fields with
  | some _ => true
  | none => false

/-- Removal of a key, modelling del dict[k]. -/
def removeKey (k : String) : List (String × JsonV) → List (String × JsonV)
  | [] => []
  | (k₀, v) :: rest => if k₀ = k then removeKey k rest else (k₀, v) :: removeKey k rest

/-- Check that every key of the dict belongs to the allowed field names of a
namedtuple; a dict with any other key makes NamedTuple(**dict) raise
TypeError. -/
def keysAmong (fields : List (String × JsonV)) (allowed : List String) : Bool :=
  fields.all fun kv => allowed.contains kv.1

/-- Python truthiness of a decoded JSON value (None, False, 0, empty string,
empty list and empty dict are falsy). -/
def pyTruthy : JsonV → Bool
  | .null => false
  | .bool b => b
  | .num n => n ≠ 0
  | .str s => s ≠ ""
  | .arr elems => !elems.isEmpty
  | .obj fields => !fields.isEmpty

/-- Python values that can be dict keys; list and dict values are unhashable
and make dict.get raise TypeError. -/
def jsonHashable : JsonV → Bool
  | .arr _ => false
  | .obj _ => false
  | _ => true

/-- Markers for Python exceptions that the surrounding source code does not
catch; reaching one of them in Connection._handle_input terminates
Connection.run, because the dispatch call there has no enclosing try. -/
inductive PyExc : Type where
  | attributeError : PyExc
  | typeError : PyExc
  | valueError : PyExc
  | invalidStateError : PyExc
  | unboundLocalError : PyExc
  | notImplementedError : PyExc
  | jsonRpcRaised : PyExc
  | cancelledRaised : PyExc
  | generalRaised : PyExc

/-- Decimal digit character, 48 is the code of the character 0. -/
def digitChar (d : Nat) : Char := Char.ofNat (48 + d)

/-- Decimal digits of a natural number, most significant first, prepended to
an accumulator; this embeds what str() produces for a non-negative int. -/
def natDigitsAux (n : Nat) (acc : List Char) : List Char :=
  if h : n < 10 then digitChar n :: acc
  else natDigitsAux (n / 10) (digitChar (n % 10) :: acc)
termination_by n
decreasing_by exact Nat.div_lt_self (by omega) (by omega)

/-- Model of the Python expression str(n) for a natural number n. -/
def pyStrOfNat (n : Nat) : String := String.mk (natDigitsAux n [])

/-- Numeric value of a decimal digit character, if it is one. -/
def charDigit? (c : Char) : Option Nat :=
  if 48 ≤ c.toNat ∧ c.toNat ≤ 57 then some (c.toNat - 48) else none

/-- Accumulating decimal parse of a run of digit characters. -/
def parseDigitsAux (v : Nat) : List Char → Option Nat
  | [] => some v
  | c :: cs =>
    match charDigit? c with
    | some d => parseDigitsAux (v * 10 + d) cs
    | none => none

/-- Parse of a non-empty all-digit character list. -/
def parseUnsigned : List Char → Option Nat
  | [] => none
  | c :: cs =>
    match charDigit? c with
    | some d => parseDigitsAux d cs
    | none => none

/-- Model of the digit-and-sign core of the Python builtin int() applied to a
string (surrounding whitespace and underscore separators, which int() also
accepts, are not modelled; none of the strings this program produces use
them).  A result of none models int() raising ValueError. -/
def pyIntOfChars (cs : List Char) : Option Int :=
  match cs with
  | [] => none
  | c :: rest =>
    if c = '-' then (parseUnsigned rest).map fun n => -(n : Int)
    else if c = '+' then (parseUnsigned rest).map fun n => (n : Int)
    else (parseUnsigned cs).map fun n => (n : Int)

/-- Model of the Python builtin int() applied to a decoded JSON value: fails
with ValueError on a non-numeric string and with TypeError on None, a list
or a dict; int(True) is 1 and int(False) is 0. -/
def pyIntE : JsonV → Except PyExc Int
  | .num n => .ok n
  | .bool b => .ok (if b then 1 else 0)
  | .str s =>
    match pyIntOfChars s.toList with
    | some n => .ok n
    | none => .error .valueError
  | _ => .error .typeError

/-- Embedding of the class JsonRpcError of jsonrpc.py: a code, a message and
optional data, as constructed by the source code itself (the error classes
with fixed codes below). -/
structure RpcErrV : Type where
  code : Int
  message : String
  data : Option JsonV

/-- Embedding of ParseError(): code -32700. -/
def parseErrorE : RpcErrV := ⟨-32700, "Parse error", none⟩

/-- Embedding of InvalidRequest(): code -32600. -/
def invalidRequestE : RpcErrV := ⟨-32600, "Invalid Request", none⟩

/-- Embedding of MethodNotFound(): code -32601. -/
def methodNotFoundE : RpcErrV := ⟨-32601, "Method not found", none⟩

/-- Embedding of InvalidParams(): code -32602. -/
def invalidParamsE : RpcErrV := ⟨-32602, "Invalid params", none⟩

/-- Embedding of Aborted(): code -32001. -/
def abortedE : RpcErrV := ⟨-32001, "Method aborted", none⟩

/-- Embedding of UnknownError(data), that is ApplicationError(0, "Unknown
error", data); in the dispatcher it is raised with data = str(e). -/
def unknownErrorE (diagText : String) : RpcErrV := ⟨0, "Unknown error", some (.str diagText)⟩

/-- Embedding of JsonRpcError.json(): the code and message fields, plus the
data field only when data is not None. -/
def errJson (e : RpcErrV) : JsonV :=
  .obj (("code", JsonV.num e.code) :: ("message", JsonV.str e.message) ::
    (match e.data with
     | none => []
     | some d => [("data", d)]))

/-- Embedding of Connection._send_error: the envelope written for an error
reply (request_id may be None, serialized as null). -/
def errorResponse (requestId : JsonV) (e : RpcErrV) : JsonV :=
  .obj [("jsonrpc", JsonV.str "2.0"), ("id", requestId), ("error", errJson e)]

/-- Embedding of Connection._send_response: the envelope written for a
success reply. -/
def resultResponse (requestId : JsonV) (result : JsonV) : JsonV :=
  .obj [("jsonrpc", JsonV.str "2.0"), ("id", requestId), ("result", result)]

/-- Embedding of Connection._send_request: the envelope written for an
outbound request; the id is the string form of the numeric counter. -/
def requestEnvelope (requestId : String) (method : String) (params : JsonV) : JsonV :=
  .obj [("jsonrpc", JsonV.str "2.0"), ("method", JsonV.str method),
        ("id", JsonV.str requestId), ("params", params)]

/-- Embedding of Connection._send_notification: the envelope written for an
outbound notification; the raw params value is placed on the wire. -/
def notificationEnvelope (method : String) (params : JsonV) : JsonV :=
  .obj [("jsonrpc", JsonV.str "2.0"), ("method", JsonV.str method), ("params", params)]

/-- Descriptor of sensitive parameters, per the register_method docstring:
False means none sensitive, True means all sensitive, and an explicit
collection names the sensitive keys. -/
inductive SParams : Type where
  | bool (b : Bool) : SParams
  | keys (ks : List String) : SParams

/-- Embedding of anonymise_sensitive_params of jsonrpc.py.  The mask token is
the four-character string of asterisks.  The source calls params.items(),
which raises AttributeError when params is not a mapping and some value
would be masked; that crash is modelled by the result none.  When the
descriptor is the boolean False, neither branch fires and params is
returned unchanged. -/
def anonymise_sensitive_params (params : JsonV) (sensitive : SParams) : Option JsonV :=
  match sensitive with
  | .bool b =>
    if b then
      match params with
      | .obj fields => some (.obj (fields.map fun kv => (kv.1, JsonV.str "****")))
      | _ => none
    else some params
  | .keys ks =>
    match params with
    | .obj fields =>
      some (.obj (fields.map fun kv => (kv.1, if kv.1 ∈ ks then JsonV.str "****" else kv.2)))
    | _ => none

/-- Outcome of invoking a registered callback on bound arguments: the value
it returns, or the exception class it raises. -/
inductive HOutcome : Type where
  | returns (v : JsonV) : HOutcome
  | notImplemented : HOutcome
  | rpcError (code : Int) (message : String) (data : Option JsonV) : HOutcome
  | cancelled : HOutcome
  | unexpected (text : String) : HOutcome

/-- Exception marker for a handler outcome that escapes uncaught (the
immediate dispatch paths have no try around the callback). -/
def escapedExc : HOutcome → PyExc
  | .returns _ => .generalRaised
  | .notImplemented => .notImplementedError
  | .rpcError _ _ _ => .jsonRpcRaised
  | .cancelled => .cancelledRaised
  | .unexpected _ => .generalRaised

/-- Embedding of a Method entry of the registries: the immediate flag, the
sensitive-params descriptor, the signature.bind success predicate of the
callback (binding happens by keyword over a params mapping) and the
outcome of the callback on bound arguments. -/
structure RegHandler : Type where
  immediate : Bool
  sensitiveParams : SParams
  binds : List (String × JsonV) → Bool
  outcome : List (String × JsonV) → HOutcome

/-- Registry lookup by name, modelling dict.get on the method or
notification registry (keys are the registered name strings). -/
def lookupReg (name : String) : List (String × RegHandler) → Option RegHandler
  | [] => none
  | (k, h) :: rest => if k = name then some h else lookupReg name rest

/-- State of an asyncio future awaiting a response. -/
inductive FutureV : Type where
  | pending : FutureV
  | resolved (result : JsonV) : FutureV
  | rejected (code : JsonV) (message : JsonV) (data : JsonV) : FutureV

/-- Embedding of the mutable state of the class Connection: the two handler
registries, the outbound request counter and the correlation table
_requests_futures keyed by the numeric id. -/
structure ConnState : Type where
  methods : List (String × RegHandler)
  notifications : List (String × RegHandler)
  lastRequestId : Nat
  requestsFutures : List (Int × FutureV × SParams)

/-- Connection state at construction time: empty registries, counter 0,
empty correlation table. -/
def initialConn : ConnState := ⟨[], [], 0, []⟩

/-- Lookup in the correlation table, modelling _requests_futures.get(n). -/
def findFuture (table : List (Int × FutureV × SParams)) (n : Int) : Option (FutureV × SParams) :=
  match table with
  | [] => none
  | (k, fut, sp) :: rest => if k = n then some (fut, sp) else findFuture rest n

/-- Replacement of the future stored under a key; the entry itself stays in
the table (the source never removes correlation entries). -/
def setFuture (table : List (Int × FutureV × SParams)) (n : Int) (fut : FutureV) :
    List (Int × FutureV × SParams) :=
  match table with
  | [] => []
  | (k, f₀, sp₀) :: rest =>
    if k = n then (k, fut, sp₀) :: setFuture rest n fut
    else (k, f₀, sp₀) :: setFuture rest n fut

/-- Result of one dispatcher step: the new connection state, the envelopes
written to the peer (replies of deferred handler tasks included, in the
order the code sends them), and an exception escaping into Connection.run,
which has no try around the dispatch and therefore terminates the read
loop when crash is some. -/
structure HandleOut : Type where
  state : ConnState
  writes : List JsonV
  crash : Option PyExc

/-- Classified inbound message, modelling the Request and Response
namedtuples with their field defaults already applied. -/
inductive Message : Type where
  | request (method : JsonV) (params : JsonV) (id : JsonV) : Message
  | response (id : JsonV) (result : JsonV) (error : JsonV) : Message

/-- Outcome of Connection._parse_message: a classified message, a JsonRpcError
raised for _handle_input to catch, or a Python exception that neither
function catches. -/
inductive ParseOut : Type where
  | ok (m : Message) : ParseOut
  | rpcRaise (e : RpcErrV) : ParseOut
  | crash (e : PyExc) : ParseOut

/-- Embedding of Connection._parse_message.  The argument is the result of
json.loads on the stripped line: none when the line is malformed JSON
(json.loads raises JSONDecodeError, re-raised as ParseError), otherwise
the decoded value.  A decoded value that is not an object makes the
expression jsonrpc_message.get raise AttributeError, which nothing in
_parse_message or _handle_input catches.  Binding the remaining fields
against the Request or Response namedtuple raises TypeError on an unknown
field name or a missing method, re-raised as InvalidRequest. -/
def parse_message : Option JsonV → ParseOut
  | none => .rpcRaise parseErrorE
  | some j =>
    match j with
    | .obj fields =>
      match lookupKey "jsonrpc" fields with
      | some (.str v) =>
        if v = "2.0" then
          let rest := removeKey "jsonrpc" fields
          if hasKey "result" rest || hasKey "error" rest then
            if keysAmong rest ["id", "result", "error"] then
              .ok (.response (getKeyD rest "id" .null) (getKeyD rest "result" (.obj []))
                    (getKeyD rest "error" (.obj [])))
            else .rpcRaise invalidRequestE
          else
            if keysAmong rest ["method", "params", "id"] && hasKey "method" rest then
              .ok (.request (getKeyD rest "method" .null) (getKeyD rest "params" (.obj []))
                    (getKeyD rest "id" .null))
            else .rpcRaise invalidRequestE
        else .rpcRaise invalidRequestE
      | _ => .rpcRaise invalidRequestE
    | _ => .crash .attributeError

/-- Embedding of signature.bind(**request.params): succeeds only when params
is a mapping that the signature of the registered callback accepts; a
non-mapping params value makes the double-star unpacking raise TypeError,
which the source catches the same way as a binding mismatch. -/
def tryBind (h : RegHandler) (params : JsonV) : Option (List (String × JsonV)) :=
  match params with
  | .obj fields => if h.binds fields then some fields else none
  | _ => none

/-- Text of the NameError raised when the scheduled handle() task touches
the never-assigned closure variable bound_args after a binding failure;
it stands for the str(e) the interpreter produces (the exact wording is
irrelevant to every claim, only that some UnknownError reply with that
string as data is sent). -/
def boundArgsNameErrorText : String :=
  "free variable bound_args referenced before assignment"

/-- Embedding of Connection._handle_request.  Faithful details: a request
whose method value is unhashable makes dict.get raise; a binding failure
sends InvalidParams and then falls through to use the unbound local
bound_args — for an immediate handler the resulting UnboundLocalError has
no enclosing try and escapes, while for a deferred handler the NameError
fires later inside the scheduled handle() task, whose except Exception
answers the request a second time with UnknownError carrying str(e), and
nothing escapes; an immediate callback runs with no enclosing try, so
anything it raises escapes; a deferred callback runs in a wrapper task
that converts every outcome into exactly one reply. -/
def handle_request (s : ConnState) (method params idJ : JsonV) : HandleOut :=
  if jsonHashable method then
    match (match method with | .str name => lookupReg name s.methods | _ => none) with
    | none => ⟨s, [errorResponse idJ methodNotFoundE], none⟩
    | some h =>
      match anonymise_sensitive_params params h.sensitiveParams with
      | none => ⟨s, [], some .attributeError⟩
      | some _ =>
        match tryBind h params with
        | none =>
          if h.immediate then ⟨s, [errorResponse idJ invalidParamsE], some .unboundLocalError⟩
          else
            ⟨s, [errorResponse idJ invalidParamsE,
                 errorResponse idJ (unknownErrorE boundArgsNameErrorText)], none⟩
        | some args =>
          if h.immediate then
            match h.outcome args with
            | .returns v => ⟨s, [resultResponse idJ v], none⟩
            | o => ⟨s, [], some (escapedExc o)⟩
          else
            match h.outcome args with
            | .returns v => ⟨s, [resultResponse idJ v], none⟩
            | .notImplemented => ⟨s, [errorResponse idJ methodNotFoundE], none⟩
            | .rpcError c m d => ⟨s, [errorResponse idJ ⟨c, m, d⟩], none⟩
            | .cancelled => ⟨s, [errorResponse idJ abortedE], none⟩
            | .unexpected t => ⟨s, [errorResponse idJ (unknownErrorE t)], none⟩
  else ⟨s, [], some .typeError⟩

/-- Embedding of Connection._handle_notification.  An unknown notification is
logged and dropped; a binding failure sends an error reply with id null
(request.id is None here) and then falls through to use the unbound
local bound_args — for an immediate handler the UnboundLocalError has no
enclosing try and escapes, while for a deferred handler bound_args is
evaluated inside the try/except Exception around create_task, so the
error is caught and logged and the read loop survives; an immediate
callback that raises escapes uncaught; a deferred callback is scheduled
with handle_exceptions left True, so its failures are only logged. -/
def handle_notification (s : ConnState) (method params : JsonV) : HandleOut :=
  if jsonHashable method then
    match (match method with | .str name => lookupReg name s.notifications | _ => none) with
    | none => ⟨s, [], none⟩
    | some h =>
      match anonymise_sensitive_params params h.sensitiveParams with
      | none => ⟨s, [], some .attributeError⟩
      | some _ =>
        match tryBind h params with
        | none =>
          if h.immediate then ⟨s, [errorResponse .null invalidParamsE], some .unboundLocalError⟩
          else ⟨s, [errorResponse .null invalidParamsE], none⟩
        | some args =>
          if h.immediate then
            match h.outcome args with
            | .returns _ => ⟨s, [], none⟩
            | o => ⟨s, [], some (escapedExc o)⟩
          else ⟨s, [], none⟩
  else ⟨s, [], some .typeError⟩

/-- Embedding of Connection._handle_response.  The source looks the entry up
with dict.get and never removes it; int() is applied to the envelope id
before the lookup; an unknown numeric id is logged and dropped; a truthy
error field must be a dict (setdefault), the reconstructed error defaults
code to 0, message to the empty string and data to None; the log call
anonymises the payload before the future is completed, and completing a
future that is not pending raises InvalidStateError. -/
def handle_response (s : ConnState) (idJ result error : JsonV) : HandleOut :=
  match pyIntE idJ with
  | .error e => ⟨s, [], some e⟩
  | .ok n =>
    match findFuture s.requestsFutures n with
    | none => ⟨s, [], none⟩
    | some (fut, sp) =>
      if pyTruthy error then
        match error with
        | .obj efields =>
          let codeV := getKeyD efields "code" (.num 0)
          let messageV := getKeyD efields "message" (.str "")
          let dataV := getKeyD efields "data" .null
          match anonymise_sensitive_params dataV sp with
          | none => ⟨s, [], some .attributeError⟩
          | some _ =>
            match fut with
            | .pending =>
              ⟨{ s with requestsFutures := setFuture s.requestsFutures n (.rejected codeV messageV dataV) },
               [], none⟩
            | _ => ⟨s, [], some .invalidStateError⟩
        | _ => ⟨s, [], some .attributeError⟩
      else
        match anonymise_sensitive_params result sp with
        | none => ⟨s, [], some .attributeError⟩
        | some _ =>
          match fut with
          | .pending =>
            ⟨{ s with requestsFutures := setFuture s.requestsFutures n (.resolved result) }, [], none⟩
          | _ => ⟨s, [], some .invalidStateError⟩

/-- Null test on the bound id field, modelling the expression
message.id is not None (an absent id was defaulted to None by the
namedtuple). -/
def isNullJ : JsonV → Bool
  | .null => true
  | _ => false

/-- Embedding of Connection._handle_input: parse the line, answer a raised
JsonRpcError with an error reply carrying id null, and dispatch a parsed
message by its class and the presence of an id. -/
def handle_input (s : ConnState) (input : Option JsonV) : HandleOut :=
  match parse_message input with
  | .rpcRaise e => ⟨s, [errorResponse .null e], none⟩
  | .crash e => ⟨s, [], some e⟩
  | .ok (.request method params idJ) =>
    if isNullJ idJ then handle_notification s method params
    else handle_request s method params idJ
  | .ok (.response idJ result error) => handle_response s idJ result error

/-- Embedding of Connection.send_request: the counter is incremented, the
correlation entry is registered under the integer counter value, the log
line anonymises the params (raising AttributeError when the descriptor
masks values of a non-mapping), and the Request envelope carries the id
as the string form of the counter.  The returned writes list holds the
envelope actually written. -/
def send_request (s : ConnState) (method : String) (params : JsonV) (sp : SParams) :
    ConnState × List JsonV × Option PyExc :=
  let n := s.lastRequestId + 1
  let s₁ : ConnState :=
    { s with lastRequestId := n, requestsFutures := s.requestsFutures ++ [((n : Int), .pending, sp)] }
  match anonymise_sensitive_params params sp with
  | none => (s₁, [], some .attributeError)
  | some _ => (s₁, [requestEnvelope (pyStrOfNat n) method params], none)

/-- Result of Connection.send_notification: the log line with anonymised
params (none when the anonymisation raised, in which case nothing is
written) and the envelopes written to the wire. -/
structure NotifyOut : Type where
  logLine : Option (String × JsonV)
  writes : List JsonV
  crash : Option PyExc

/-- Embedding of Connection.send_notification: the log line is built from the
anonymised params, then the envelope with the raw params is written; the
sensitive-params descriptor plays no role in what reaches the wire. -/
def send_notification (method : String) (params : JsonV) (sp : SParams) : NotifyOut :=
  match anonymise_sensitive_params params sp with
  | none => ⟨none, [], some .attributeError⟩
  | some a => ⟨some (method, a), [notificationEnvelope method params], none⟩

/-- Error payload carried by a per-id failure notification: the form of the
ApplicationError values the importer reports (UnknownError is
ApplicationError with code 0, message "Unknown error" and data None). -/
structure AppErrV : Type where
  code : Int
  message : String
  data : Option JsonV

/-- Embedding of UnknownError() as reported by the importer for an
unexpected exception. -/
def unknownAppErr : AppErrV := ⟨0, "Unknown error", none⟩

/-- Lifecycle notifications emitted by an import run, with the per-element
value type abstract. -/
inductive Notif (α : Type) : Type where
  | success (id : String) (value : α) : Notif α
  | failure (id : String) (error : AppErrV) : Notif α
  | partiallyFinished (id : String) : Notif α
  | finished : Notif α

/-- Behaviour of one per-id fetch of the base Importer: the awaited result
of the get callback, or the exception class it raises. -/
inductive FetchOutcome (α : Type) : Type where
  | ok (value : α) : FetchOutcome α
  | appError (e : AppErrV) : FetchOutcome α
  | cancel : FetchOutcome α
  | unexpected : FetchOutcome α

/-- Embedding of Importer._import_element: a successful get yields one
success notification, an ApplicationError yields one failure
notification, a CancelledError is swallowed silently, and any other
exception is logged and reported as an UnknownError failure. -/
def import_element (id : String) : FetchOutcome α → List (Notif α)
  | .ok v => [.success id v]
  | .appError e => [.failure id e]
  | .cancel => []
  | .unexpected => [.failure id unknownAppErr]

/-- Terminal behaviour of the async generator driven by
CollectionImporter._import_element after its yielded batches. -/
inductive CollEnd : Type where
  | done : CollEnd
  | appError (e : AppErrV) : CollEnd
  | cancel : CollEnd
  | unexpected : CollEnd

/-- Behaviour of one per-id fetch of the CollectionImporter: the batches the
async generator yields before it ends, and how it ends. -/
structure CollFetch (α : Type) : Type where
  batches : List α
  ending : CollEnd

/-- Embedding of CollectionImporter._import_element: one success notification
per yielded batch, then a failure notification when the generator raised
an ApplicationError or an unexpected exception (silence for
cancellation), and finally, from the finally block, always exactly one
partially-finished notification. -/
def collection_import_element (id : String) (f : CollFetch α) : List (Notif α) :=
  (f.batches.map fun v => Notif.success id v) ++
    (match f.ending with
     | .done => []
     | .appError e => [.failure id e]
     | .cancel => []
     | .unexpected => [.failure id unknownAppErr]) ++
    [.partiallyFinished id]

/-- One scheduler pick: emit the next pending event of the coroutine at the
given index.  Returns the emitted event and the remaining chunks. -/
def schedStep (chunks : List (List α)) (i : Nat) : Option (α × List (List α)) :=
  match chunks[i]? with
  | some (x :: rest) => some (x, chunks.set i rest)
  | _ => none

/-- Run of a cooperative schedule over the per-coroutine event lists: the
trace is a valid complete interleaving of the chunks exactly when some
schedule produces it.  This models the orderings asyncio.gather may
produce, which preserve the order of events within one coroutine but
interleave events of different coroutines arbitrarily. -/
def interleaveRun (sched : List Nat) (chunks : List (List α)) : Option (List α) :=
  match sched with
  | [] => if chunks.all List.isEmpty then some [] else none
  | i :: rest =>
    match schedStep chunks i with
    | some (x, chunks₁) => (interleaveRun rest chunks₁).map fun t => x :: t
    | none => none

/-- Embedding of Importer._import_elements for a run whose import task is
not cancelled: the gather of the per-id fetch coroutines emits some
complete interleaving of the per-id notification lists, and the finished
notification follows once the gather completes. -/
def importer_trace (ids : List String) (fetch : String → FetchOutcome α) (sched : List Nat) :
    Option (List (Notif α)) :=
  (interleaveRun sched (ids.map fun i => import_element i (fetch i))).map
    fun t => t ++ [Notif.finished]

/-- Embedding of SynchroneousImporter._import_elements for a run whose import
task is not cancelled: the per-id fetches run sequentially in order, then
the finished notification is sent. -/
def synchroneous_importer_trace (ids : List String) (fetch : String → FetchOutcome α) :
    List (Notif α) :=
  (ids.map fun i => import_element i (fetch i)).flatten ++ [Notif.finished]

/-- Trace of a CollectionImporter run whose import task is not cancelled:
some complete interleaving of the per-id event lists, then finished. -/
def collection_importer_trace (ids : List String) (fetch : String → CollFetch α)
    (sched : List Nat) : Option (List (Notif α)) :=
  (interleaveRun sched (ids.map fun i => collection_import_element i (fetch i))).map
    fun t => t ++ [Notif.finished]

/-- Test for an outcome notification (success or failure) of the given id. -/
def isOutcomeFor (i : String) : Notif α → Bool
  | .success j _ => j = i
  | .failure j _ => j = i
  | _ => false

/-- Test for a success notification of the given id. -/
def isSuccessFor (i : String) : Notif α → Bool
  | .success j _ => j = i
  | _ => false

/-- Test for a failure notification of the given id. -/
def isFailureFor (i : String) : Notif α → Bool
  | .failure j _ => j = i
  | _ => false

/-- Test for a partially-finished notification of the given id. -/
def isPartialFor (i : String) : Notif α → Bool
  | .partiallyFinished j => j = i
  | _ => false

/-- Test for the finished notification. -/
def isFinishedN : Notif α → Bool
  | .finished => true
  | _ => false

/-- Number of outcome notifications one base-importer fetch emits: one,
except that a cancelled fetch emits none. -/
def outcomeWeight : FetchOutcome α → Nat
  | .cancel => 0
  | _ => 1

/-- Number of failure notifications one collection fetch emits. -/
def collFailWeight : CollEnd → Nat
  | .appError _ => 1
  | .unexpected => 1
  | _ => 0

/-- Embedding of the state of an Importer instance that Importer.start can
touch: the session flag and the tasks handed to the task manager (each
task recorded as the prepared context paired with the requested ids). -/
structure ImporterState (γ : Type) : Type where
  importInProgress : Bool
  tasks : List (List String × γ)

/-- Synchronous result of Importer.start. -/
inductive StartOutcome (ε : Type) : Type where
  | importInProgressError : StartOutcome ε
  | raised (e : ε) : StartOutcome ε
  | started : StartOutcome ε

/-- Embedding of Importer.start: fail fast when the session flag is set; set
the flag, await the context preparation, and on its failure reset the
flag and re-raise (the bare except also covers task creation, which this
model treats as total); on success hand the import coroutine to the task
manager.  The third component lists the notifications start itself sends,
which is none on every path. -/
def importer_start (s : ImporterState γ) (ids : List String) (prep : Except ε γ) :
    ImporterState γ × StartOutcome ε × List (Notif α) :=
  if s.importInProgress then (s, .importInProgressError, [])
  else
    match prep with
    | .error e => ({ s with importInProgress := false }, .raised e, [])
    | .ok ctx => ({ s with importInProgress := true, tasks := s.tasks ++ [(ids, ctx)] }, .started, [])

/-- A task registered with the TaskManager, described by the tasks its
coroutine registers in the same manager before finishing (which may
themselves spawn further tasks when later awaited). -/
inductive TaskTree : Type where
  | node (spawns : List TaskTree) : TaskTree

/-- Tasks spawned by a task. -/
def TaskTree.spawns : TaskTree → List TaskTree
  | .node s => s

/-- One drain round of TaskManager.wait: asyncio.gather over the current
snapshot completes every task in it (each deregisters itself in its
finally block), and the tasks they spawned meanwhile are the live set
afterwards. -/
def drainRound (ts : List TaskTree) : List TaskTree :=
  (ts.map TaskTree.spawns).flatten

/-- Embedding of TaskManager.wait with explicit fuel: each loop iteration
re-reads the live task set, returns when it is empty, and otherwise
gathers the current snapshot.  The result none means the fuel ran out
while tasks kept spawning (the source loops forever in that case); some
is the live set at the moment wait returns. -/
def task_manager_wait : Nat → List TaskTree → Option (List TaskTree)
  | _, [] => some []
  | 0, _ :: _ => none
  | fuel + 1, t :: ts => task_manager_wait fuel (drainRound (t :: ts))

/-- Scale factor contributed by the decimal digits of n (ten to the number
of digits), following the recursion of natDigitsAux. -/
def tenPow (n : Nat) : Nat :=
  if h : n < 10 then 10 else 10 * tenPow (n / 10)
termination_by n
decreasing_by exact Nat.div_lt_self (by omega) (by omega)

theorem charDigit?_digitChar (d : Nat) (h : d < 10) : charDigit? (digitChar d) = some d := by
  interval_cases d <;> decide

theorem digitChar_ne_dash (d : Nat) (h : d < 10) : digitChar d ≠ '-' := by
  interval_cases d <;> decide

theorem digitChar_ne_plus (d : Nat) (h : d < 10) : digitChar d ≠ '+' := by
  interval_cases d <;> decide

theorem parseDigitsAux_natDigitsAux (n : Nat) :
    ∀ (acc : List Char) (v : Nat),
      parseDigitsAux v (natDigitsAux n acc) = parseDigitsAux (v * tenPow n + n) acc := by
  induction n using Nat.strong_induction_on with
  | _ n ih =>
    intro acc v
    by_cases h : n < 10
    · rw [natDigitsAux, dif_pos h, tenPow, dif_pos h]
      simp [parseDigitsAux, charDigit?_digitChar n h]
    · rw [natDigitsAux, dif_neg h, tenPow, dif_neg h]
      rw [ih (n / 10) (Nat.div_lt_self (by omega) (by omega))]
      simp only [parseDigitsAux, charDigit?_digitChar (n % 10) (Nat.mod_lt n (by omega))]
      congr 1
      have hdm : 10 * (n / 10) + n % 10 = n := Nat.div_add_mod n 10
      calc (v * tenPow (n / 10) + n / 10) * 10 + n % 10
          = v * (10 * tenPow (n / 10)) + (10 * (n / 10) + n % 10) := by ring
        _ = v * (10 * tenPow (n / 10)) + n := by rw [hdm]

theorem natDigitsAux_head (n : Nat) :
    ∀ acc : List Char, ∃ d rest, d < 10 ∧ natDigitsAux n acc = digitChar d :: rest := by
  induction n using Nat.strong_induction_on with
  | _ n ih =>
    intro acc
    by_cases h : n < 10
    · exact ⟨n, acc, h, by rw [natDigitsAux, dif_pos h]⟩
    · obtain ⟨d, rest, hd, heq⟩ := ih (n / 10) (Nat.div_lt_self (by omega) (by omega))
        (digitChar (n % 10) :: acc)
      exact ⟨d, rest, hd, by rw [natDigitsAux, dif_neg h]; exact heq⟩

theorem pyIntOfChars_pyStrOfNat (n : Nat) :
    pyIntOfChars (pyStrOfNat n).data = some (n : Int) := by
  have hlist : (pyStrOfNat n).data = natDigitsAux n [] := rfl
  have h0 : parseDigitsAux 0 (natDigitsAux n []) = some n := by
    rw [parseDigitsAux_natDigitsAux]
    simp [parseDigitsAux]
  obtain ⟨d, rest, hd, heq⟩ := natDigitsAux_head n []
  rw [hlist, heq]
  rw [heq] at h0
  simp only [parseDigitsAux, charDigit?_digitChar d hd, Nat.zero_mul, Nat.zero_add] at h0
  simp [pyIntOfChars, digitChar_ne_dash d hd, digitChar_ne_plus d hd, parseUnsigned,
    charDigit?_digitChar d hd, h0]

theorem pyIntE_pyStrOfNat (n : Nat) : pyIntE (.str (pyStrOfNat n)) = .ok (n : Int) := by
  simp [pyIntE, pyIntOfChars_pyStrOfNat n]

theorem schedStep_some (chunks : List (List α)) (i : Nat) (x : α) (chunks₁ : List (List α))
    (h : schedStep chunks i = some (x, chunks₁)) :
    ∃ rest, chunks[i]? = some (x :: rest) ∧ chunks₁ = chunks.set i rest := by
  unfold schedStep at h
  split at h
  · next rest hget =>
    injection h with h
    injection h with h₁ h₂
    subst h₁
    exact ⟨rest, hget, h₂.symm⟩
  · exact absurd h (by simp)

theorem countP_sum_set (p : α → Bool) :
    ∀ (chunks : List (List α)) (i : Nat) (x : α) (rest : List α),
      chunks[i]? = some (x :: rest) →
      ((chunks.set i rest).map (List.countP p)).sum + (if p x then 1 else 0) =
        (chunks.map (List.countP p)).sum := by
  intro chunks
  induction chunks with
  | nil => intro i x rest h; simp at h
  | cons c cs ih =>
    intro i x rest h
    cases i with
    | zero =>
      simp only [List.getElem?_cons_zero, Option.some.injEq] at h
      subst h
      simp only [List.set, List.map_cons, List.sum_cons, List.countP_cons]
      omega
    | succ j =>
      simp only [List.getElem?_cons_succ] at h
      have hih := ih j x rest h
      show ((c :: cs.set j rest).map (List.countP p)).sum + _ = _
      simp only [List.map_cons, List.sum_cons]
      omega

theorem interleaveRun_countP (p : α → Bool) :
    ∀ (sched : List Nat) (chunks : List (List α)) (t : List α),
      interleaveRun sched chunks = some t →
      t.countP p = (chunks.map (List.countP p)).sum := by
  intro sched
  induction sched with
  | nil =>
    intro chunks t h
    unfold interleaveRun at h
    split at h
    · next hall =>
      injection h with h
      subst h
      have hz : ∀ y ∈ chunks.map (List.countP p), y = 0 := by
        intro y hy
        obtain ⟨c, hc, rfl⟩ := List.mem_map.mp hy
        have hce := List.all_eq_true.mp hall c hc
        simp only [List.isEmpty_iff] at hce
        simp [hce]
      simp [List.sum_eq_zero hz]
    · exact absurd h (by simp)
  | cons i rest ih =>
    intro chunks t h
    unfold interleaveRun at h
    split at h
    · next x chunks₁ hstep =>
      obtain ⟨t₁, ht₁, rfl⟩ := Option.map_eq_some'.mp h
      obtain ⟨r, hget, rfl⟩ := schedStep_some chunks i x chunks₁ hstep
      rw [List.countP_cons, ih _ _ ht₁]
      rw [← countP_sum_set p chunks i x r hget]
    · exact absurd h (by simp)

theorem countP_outcome_import_element (i j : String) (b : FetchOutcome α) :
    List.countP (isOutcomeFor i) (import_element j b) =
      if j = i then outcomeWeight b else 0 := by
  cases b <;> by_cases h : j = i <;>
    simp_all [import_element, isOutcomeFor, outcomeWeight, List.countP_cons]

theorem countP_finished_import_element (j : String) (b : FetchOutcome α) :
    List.countP (isFinishedN) (import_element j b) = 0 := by
  cases b <;> simp [import_element, isFinishedN, List.countP_cons]

theorem countP_const_map {β : Type} (l : List β) (f : β → α) (p : α → Bool)
    (h : ∀ y ∈ l, p (f y) = true) : List.countP p (l.map f) = l.length := by
  induction l with
  | nil => simp
  | cons a rest ih =>
    simp only [List.map_cons, List.countP_cons, h a (by simp)]
    rw [ih fun y hy => h y (by simp [hy])]
    simp [List.length_cons]

theorem countP_zero_map {β : Type} (l : List β) (f : β → α) (p : α → Bool)
    (h : ∀ y ∈ l, p (f y) = false) : List.countP p (l.map f) = 0 := by
  induction l with
  | nil => simp
  | cons a rest ih =>
    simp only [List.map_cons, List.countP_cons, h a (by simp)]
    rw [ih fun y hy => h y (by simp [hy])]
    simp

theorem countP_success_coll_element (i j : String) (f : CollFetch α) :
    List.countP (isSuccessFor i) (collection_import_element j f) =
      if j = i then f.batches.length else 0 := by
  unfold collection_import_element
  rw [List.countP_append, List.countP_append]
  by_cases h : j = i
  · subst h
    rw [countP_const_map _ _ _ (by intro y hy; simp [isSuccessFor])]
    cases f.ending <;> simp [isSuccessFor, List.countP_cons]
  · rw [countP_zero_map _ _ _ (by intro y hy; simp [isSuccessFor, h])]
    cases f.ending <;> simp [isSuccessFor, List.countP_cons, h]

theorem countP_failure_coll_element (i j : String) (f : CollFetch α) :
    List.countP (isFailureFor i) (collection_import_element j f) =
      if j = i then collFailWeight f.ending else 0 := by
  unfold collection_import_element
  rw [List.countP_append, List.countP_append]
  rw [countP_zero_map _ _ _ (by intro y hy; simp [isFailureFor])]
  by_cases h : j = i <;>
    cases f.ending <;> simp_all [isFailureFor, collFailWeight, List.countP_cons]

theorem countP_partial_coll_element (i j : String) (f : CollFetch α) :
    List.countP (isPartialFor i) (collection_import_element j f) =
      if j = i then 1 else 0 := by
  unfold collection_import_element
  rw [List.countP_append, List.countP_append]
  rw [countP_zero_map _ _ _ (by intro y hy; simp [isPartialFor])]
  by_cases h : j = i <;>
    cases f.ending <;> simp_all [isPartialFor, List.countP_cons]

theorem countP_finished_coll_element (j : String) (f : CollFetch α) :
    List.countP (isFinishedN) (collection_import_element j f) = 0 := by
  unfold collection_import_element
  rw [List.countP_append, List.countP_append]
  rw [countP_zero_map _ _ _ (by intro y hy; simp [isFinishedN])]
  cases f.ending <;> simp [isFinishedN, List.countP_cons]

theorem sum_map_single {I : Type} [DecidableEq I] (ids : List I) (g : I → Nat) (i : I)
    (hnd : ids.Nodup) (hm : i ∈ ids) :
    (ids.map fun j => if j = i then g j else 0).sum = g i := by
  induction ids with
  | nil => cases hm
  | cons a rest ih =>
    rw [List.nodup_cons] at hnd
    simp only [List.map_cons, List.sum_cons]
    by_cases hai : a = i
    · rw [if_pos hai]
      have hz : ∀ y ∈ rest.map fun j => if j = i then g j else 0, y = 0 := by
        intro y hy
        obtain ⟨j, hj, rfl⟩ := List.mem_map.mp hy
        have hji : j ≠ i := fun hje => hnd.1 (by rw [hai, ← hje]; exact hj)
        simp [hji]
      rw [List.sum_eq_zero hz, hai, Nat.add_zero]
    · rw [if_neg hai, Nat.zero_add]
      have hir : i ∈ rest := by
        rcases List.mem_cons.mp hm with h | h
        · exact absurd h.symm hai
        · exact h
      exact ih hnd.2 hir

theorem countP_flatten (p : α → Bool) (ll : List (List α)) :
    List.countP p ll.flatten = (ll.map (List.countP p)).sum := by
  induction ll with
  | nil => simp
  | cons c cs ih => simp [List.flatten_cons, List.countP_append, ih]

theorem findFuture_setFuture_self (n : Int) (fut : FutureV) :
    ∀ (table : List (Int × FutureV × SParams)) (f : FutureV) (sp : SParams),
      findFuture table n = some (f, sp) →
      findFuture (setFuture table n fut) n = some (fut, sp) := by
  intro table
  induction table with
  | nil => intro f sp h; simp [findFuture] at h
  | cons e rest ih =>
    intro f sp h
    obtain ⟨k, f₀, sp₀⟩ := e
    by_cases hk : k = n
    · rw [findFuture, if_pos hk] at h
      injection h with h
      injection h with h₁ h₂
      rw [setFuture, if_pos hk, findFuture, if_pos hk, h₂]
    · rw [findFuture, if_neg hk] at h
      rw [setFuture, if_neg hk, findFuture, if_neg hk]
      exact ih f sp h

theorem findFuture_setFuture_ne (n m : Int) (fut : FutureV) (hne : m ≠ n) :
    ∀ (table : List (Int × FutureV × SParams)),
      findFuture (setFuture table n fut) m = findFuture table m := by
  intro table
  induction table with
  | nil => rfl
  | cons e rest ih =>
    obtain ⟨k, f₀, sp₀⟩ := e
    by_cases hk : k = n
    · have hkm : k ≠ m := by omega
      rw [setFuture, if_pos hk, findFuture, if_neg hkm, findFuture, if_neg hkm]
      exact ih
    · by_cases hkm : k = m
      · rw [setFuture, if_neg hk, findFuture, if_pos hkm, findFuture, if_pos hkm]
      · rw [setFuture, if_neg hk, findFuture, if_neg hkm, findFuture, if_neg hkm]
        exact ih

theorem findFuture_bounded_none (bound : Int) (m : Int) (hm : bound < m) :
    ∀ (table : List (Int × FutureV × SParams)),
      (∀ e ∈ table, e.1 ≤ bound) → findFuture table m = none := by
  intro table
  induction table with
  | nil => intro _; rfl
  | cons e rest ih =>
    intro hb
    obtain ⟨k, f₀, sp₀⟩ := e
    have hk : k ≤ bound := hb (k, f₀, sp₀) (by simp)
    have hkm : k ≠ m := by omega
    rw [findFuture, if_neg hkm]
    exact ih fun x hx => hb x (by simp [hx])

theorem anonymise_obj_some (kvs : List (String × JsonV)) (sp : SParams) :
    ∃ a, anonymise_sensitive_params (.obj kvs) sp = some a := by
  cases sp with
  | bool b => cases b <;> simp [anonymise_sensitive_params]
  | keys ks => simp [anonymise_sensitive_params]

theorem tryBind_some_obj (h : RegHandler) (params : JsonV) (args : List (String × JsonV))
    (hb : tryBind h params = some args) : ∃ fields, params = .obj fields := by
  cases params <;> simp [tryBind] at hb <;> exact ⟨_, rfl⟩

/-- Claim C1 (confirmed).  Importer.start is atomic on failure: when the
session flag is already set, start raises ImportInProgress and the state
(the flag, the recorded tasks) is returned unchanged with no
notifications sent; and when the context-preparation callback raises,
the flag ends false, the exception propagates synchronously as the
outcome, no task is handed to the task manager and no notifications are
sent. -/
theorem importer_start_atomic_on_failure (γ ε α : Type)
    (s : ImporterState γ) (ids : List String) (prep : Except ε γ) :
    (s.importInProgress = true →
      importer_start (α := α) s ids prep = (s, .importInProgressError, [])) ∧
    (s.importInProgress = false → ∀ e : ε, prep = .error e →
      importer_start (α := α) s ids prep = (s, .raised e, [])) := by
  constructor
  · intro h
    simp [importer_start, h]
  · intro h e hp
    subst hp
    obtain ⟨flag, tasks⟩ := s
    simp only at h
    subst h
    simp [importer_start]

/-- Witness for C1 at concrete inputs: a second start on a busy importer
fails fast without touching the state, and a start whose preparation
raises resets the flag, spawns nothing and notifies nothing. -/
theorem importer_start_atomic_on_failure_witness :
    importer_start (α := Unit) (⟨true, []⟩ : ImporterState Unit) ["a"]
        ((Except.ok ()) : Except String Unit) =
      (⟨true, []⟩, .importInProgressError, []) ∧
    importer_start (α := Unit) (⟨false, []⟩ : ImporterState Unit) ["a"]
        (Except.error "boom") = (⟨false, []⟩, .raised "boom", []) :=
  ⟨(importer_start_atomic_on_failure Unit String Unit ⟨true, []⟩ ["a"]
      (Except.ok ())).1 rfl,
   (importer_start_atomic_on_failure Unit String Unit ⟨false, []⟩ ["a"]
      (Except.error "boom")).2 rfl "boom" rfl⟩

/-- Claim C9 (confirmed).  Whenever TaskManager.wait returns, the live task
set is empty: the loop re-reads the registered set each round and only
returns on seeing it empty, so tasks spawned by awaited tasks during the
drain are themselves drained before wait returns. -/
theorem task_manager_wait_empty (fuel : Nat) :
    ∀ (ts res : List TaskTree), task_manager_wait fuel ts = some res → res = [] := by
  induction fuel with
  | zero =>
    intro ts res h
    cases ts with
    | nil => simp [task_manager_wait] at h; exact h
    | cons t rest => simp [task_manager_wait] at h
  | succ f ih =>
    intro ts res h
    cases ts with
    | nil => simp [task_manager_wait] at h; exact h
    | cons t rest => exact ih _ _ h

/-- Witness for C9: a task that spawns a task that spawns a task needs three
drain rounds, and wait still returns only once the live set is empty. -/
theorem task_manager_wait_empty_witness :
    task_manager_wait 3 [TaskTree.node [TaskTree.node [TaskTree.node []]]] = some [] ∧
    ([] : List TaskTree) = [] :=
  ⟨rfl, task_manager_wait_empty 3 [TaskTree.node [TaskTree.node [TaskTree.node []]]] [] rfl⟩

/-- Claim C8 (confirmed).  Redaction never touches the wire: for a params
mapping, the notification envelope written by send_notification is the
same for any two sensitive-params descriptors and carries the raw
parameter values; anonymise_sensitive_params masks every value when the
descriptor is true, the named keys when it is a collection, and nothing
when it is false, always with the fixed four-asterisk token. -/
theorem send_notification_redaction (m : String) (kvs : List (String × JsonV))
    (sp₁ sp₂ : SParams) :
    (send_notification m (.obj kvs) sp₁).writes = (send_notification m (.obj kvs) sp₂).writes ∧
    (send_notification m (.obj kvs) sp₁).writes = [notificationEnvelope m (.obj kvs)] ∧
    anonymise_sensitive_params (.obj kvs) (.bool true) =
      some (.obj (kvs.map fun kv => (kv.1, JsonV.str "****"))) ∧
    anonymise_sensitive_params (.obj kvs) (.bool false) = some (.obj kvs) ∧
    (∀ ks : List String, anonymise_sensitive_params (.obj kvs) (.keys ks) =
      some (.obj (kvs.map fun kv => (kv.1, if kv.1 ∈ ks then JsonV.str "****" else kv.2)))) := by
  obtain ⟨a₁, ha₁⟩ := anonymise_obj_some kvs sp₁
  obtain ⟨a₂, ha₂⟩ := anonymise_obj_some kvs sp₂
  refine ⟨?_, ?_, ?_, ?_, ?_⟩
  · simp [send_notification, ha₁, ha₂]
  · simp [send_notification, ha₁]
  · simp [anonymise_sensitive_params]
  · simp [anonymise_sensitive_params]
  · intro ks; simp [anonymise_sensitive_params]

/-- Lookup of the future a response envelope correlates to, modelling the
source expression _requests_futures.get(int(response.id)). -/
def futureForWireId (s : ConnState) (idJ : JsonV) : Option (FutureV × SParams) :=
  match pyIntE idJ with
  | .ok k => findFuture s.requestsFutures k
  | .error _ => none

/-- Claim C10 (confirmed).  The Request envelope send_request writes carries
its id as the decimal string of the counter while the correlation table
is keyed by the counter integer; int() applied on arrival maps both the
echoed string and the corresponding number to the same key, so either
echo form correlates to the same pending entry.  The counter starts at 0
on a fresh connection, so the first assigned id is 1. -/
theorem send_request_string_id_int_key (s : ConnState) (m : String) (p : JsonV)
    (sp : SParams) (n : Nat) :
    initialConn.lastRequestId = 0 ∧
    ((send_request s m p sp).2.1 = [] ∨
      (send_request s m p sp).2.1 =
        [requestEnvelope (pyStrOfNat (s.lastRequestId + 1)) m p]) ∧
    (send_request s m p sp).1.requestsFutures =
      s.requestsFutures ++ [(((s.lastRequestId + 1 : Nat) : Int), .pending, sp)] ∧
    pyIntE (.str (pyStrOfNat n)) = .ok (n : Int) ∧
    pyIntE (.num (n : Int)) = .ok (n : Int) ∧
    futureForWireId (send_request s m p sp).1 (.str (pyStrOfNat n)) =
      futureForWireId (send_request s m p sp).1 (.num (n : Int)) := by
  refine ⟨rfl, ?_, ?_, pyIntE_pyStrOfNat n, rfl, ?_⟩
  · cases ha : anonymise_sensitive_params p sp with
    | none => left; simp [send_request, ha]
    | some a => right; simp [send_request, ha]
  · cases ha : anonymise_sensitive_params p sp with
    | none => simp [send_request, ha]
    | some a => simp [send_request, ha]
  · unfold futureForWireId
    rw [pyIntE_pyStrOfNat n]
    simp [pyIntE]

/-- Claim C3 (code bug).  The dispatcher answers a malformed-JSON line with a
ParseError reply and an object-shaped envelope with a wrong jsonrpc field
with an InvalidRequest reply, both with id null and without crashing; but
a line holding a valid JSON value whose top level is not an object (here
the empty array) makes _parse_message raise AttributeError on the .get
call, which neither _parse_message nor _handle_input catches, so it
escapes into Connection.run and terminates the read loop instead of
producing the InvalidRequest reply the claim asserts. -/
theorem handle_input_nonobject_line_crashes :
    (handle_input initialConn none).writes = [errorResponse .null parseErrorE] ∧
    (handle_input initialConn none).crash = none ∧
    (handle_input initialConn (some (.obj [("jsonrpc", .str "1.0")]))).writes =
      [errorResponse .null invalidRequestE] ∧
    (handle_input initialConn (some (.obj [("jsonrpc", .str "1.0")]))).crash = none ∧
    (handle_input initialConn (some (.arr []))).writes = [] ∧
    (handle_input initialConn (some (.arr []))).crash = some .attributeError :=
  ⟨rfl, rfl, rfl, rfl, rfl, rfl⟩

/-- Notification handler used by the C5 evaluation: deferred, nothing
sensitive, and a signature that rejects the offered parameters. -/
def c5handler : RegHandler :=
  { immediate := false, sensitiveParams := .bool false,
    binds := fun _ => false, outcome := fun _ => .returns .null }

/-- Connection with one registered notification named n. -/
def c5conn : ConnState := { initialConn with notifications := [("n", c5handler)] }

/-- Inbound notification envelope whose params do not bind against the
registered signature. -/
def c5line : JsonV :=
  .obj [("jsonrpc", .str "2.0"), ("method", .str "n"), ("params", .obj [("x", .num 1)])]

/-- Claim C5 (code bug).  A Notification whose parameters fail to bind is
not handled silently: _handle_notification sends an InvalidParams error
reply with id null to the peer, although notifications must never be
answered and the claim says such failures are logged locally only.  The
registered handler here is deferred (as every notification the shipped
plugin registers is), so the subsequent unbound-local error on the
fall-through is caught by the try around create_task and merely logged:
the read loop survives, but the reply has already been written. -/
theorem handle_notification_bind_failure_replies :
    (handle_input c5conn (some c5line)).writes = [errorResponse .null invalidParamsE] ∧
    (handle_input c5conn (some c5line)).crash = none ∧
    ¬ (handle_input c5conn (some c5line)).writes = [] :=
  ⟨rfl, rfl, fun hcontra => by
    rw [show (handle_input c5conn (some c5line)).writes =
        [errorResponse .null invalidParamsE] from rfl] at hcontra
    exact List.noConfusion hcontra⟩

/-- Connection state after one send_request on a fresh connection: the
correlation table holds the pending entry keyed 1. -/
def c6conn : ConnState := (send_request initialConn "m" (.obj []) (.bool false)).1

/-- Response envelope answering request 1 with result 7. -/
def c6resp : JsonV := .obj [("jsonrpc", .str "2.0"), ("id", .str "1"), ("result", .num 7)]

/-- Connection state after the first delivery of that response. -/
def c6conn₂ : ConnState := (handle_input c6conn (some c6resp)).state

/-- Claim C6 (code bug).  A Response whose id was assigned and already
answered is not a logged no-op: the correlation entry was never removed,
so the second delivery finds the already-completed future and
set_result raises InvalidStateError out of the dispatcher, killing the
read loop; and a Response carrying no id at all (id defaults to None)
makes int(None) raise TypeError the same way. -/
theorem handle_response_double_answer_crashes :
    findFuture c6conn₂.requestsFutures 1 = some (.resolved (.num 7), .bool false) ∧
    (handle_input c6conn₂ (some c6resp)).crash = some .invalidStateError ∧
    (handle_input c6conn₂ (some c6resp)).writes = [] ∧
    (handle_input initialConn
        (some (.obj [("jsonrpc", .str "2.0"), ("result", .num 1)]))).crash =
      some .typeError :=
  ⟨rfl, rfl, rfl, rfl⟩

/-- Claim C2 (amended and proved).  For a start whose context preparation
succeeded and whose import task is not cancelled before completing: the
base and Synchroneous importers emit exactly one outcome notification
(success or failure, never both, never zero) per id, except that a fetch
observing cancellation emits neither; the CollectionImporter instead
emits one success notification per yielded batch, at most one failure
per id, and exactly one partially-finished notification per id; in every
variant all per-id notifications strictly precede the single finished
notification, under any interleaving of the gathered fetches. -/
theorem import_run_notification_counts (α : Type) :
    (∀ (ids : List String) (fetch : String → FetchOutcome α) (sched : List Nat)
       (T : List (Notif α)),
       importer_trace ids fetch sched = some T → ids.Nodup →
       (∃ t, T = t ++ [Notif.finished] ∧ t.countP isFinishedN = 0) ∧
       ∀ i ∈ ids, T.countP (isOutcomeFor i) = outcomeWeight (fetch i)) ∧
    (∀ (ids : List String) (fetch : String → FetchOutcome α),
       ids.Nodup →
       (∃ t, synchroneous_importer_trace ids fetch = t ++ [Notif.finished] ∧
         t.countP isFinishedN = 0) ∧
       ∀ i ∈ ids, (synchroneous_importer_trace ids fetch).countP (isOutcomeFor i) =
         outcomeWeight (fetch i)) ∧
    (∀ (ids : List String) (fetch : String → CollFetch α) (sched : List Nat)
       (T : List (Notif α)),
       collection_importer_trace ids fetch sched = some T → ids.Nodup →
       (∃ t, T = t ++ [Notif.finished] ∧ t.countP isFinishedN = 0) ∧
       ∀ i ∈ ids,
         T.countP (isSuccessFor i) = (fetch i).batches.length ∧
         T.countP (isFailureFor i) = collFailWeight (fetch i).ending ∧
         T.countP (isPartialFor i) = 1) := by
  refine ⟨?_, ?_, ?_⟩
  · intro ids fetch sched T hT hnd
    unfold importer_trace at hT
    obtain ⟨t, ht, rfl⟩ := Option.map_eq_some'.mp hT
    refine ⟨⟨t, rfl, ?_⟩, ?_⟩
    · rw [interleaveRun_countP isFinishedN sched _ t ht, List.map_map]
      apply List.sum_eq_zero
      intro y hy
      obtain ⟨j, hj, rfl⟩ := List.mem_map.mp hy
      exact countP_finished_import_element j (fetch j)
    · intro i hi
      rw [List.countP_append]
      have hfin : List.countP (isOutcomeFor i) ([Notif.finished] : List (Notif α)) = 0 := by
        simp [isOutcomeFor, List.countP_cons]
      rw [hfin, Nat.add_zero, interleaveRun_countP (isOutcomeFor i) sched _ t ht, List.map_map]
      have hpt : ids.map (List.countP (isOutcomeFor i) ∘ fun j => import_element j (fetch j)) =
          ids.map fun j => if j = i then (fun j => outcomeWeight (fetch j)) j else 0 :=
        List.map_congr_left fun j _ => countP_outcome_import_element i j (fetch j)
      rw [hpt, sum_map_single ids (fun j => outcomeWeight (fetch j)) i hnd hi]
  · intro ids fetch hnd
    constructor
    · refine ⟨(ids.map fun i => import_element i (fetch i)).flatten, rfl, ?_⟩
      rw [countP_flatten, List.map_map]
      apply List.sum_eq_zero
      intro y hy
      obtain ⟨j, hj, rfl⟩ := List.mem_map.mp hy
      exact countP_finished_import_element j (fetch j)
    · intro i hi
      unfold synchroneous_importer_trace
      rw [List.countP_append]
      have hfin : List.countP (isOutcomeFor i) ([Notif.finished] : List (Notif α)) = 0 := by
        simp [isOutcomeFor, List.countP_cons]
      rw [hfin, Nat.add_zero, countP_flatten, List.map_map]
      have hpt : ids.map (List.countP (isOutcomeFor i) ∘ fun j => import_element j (fetch j)) =
          ids.map fun j => if j = i then (fun j => outcomeWeight (fetch j)) j else 0 :=
        List.map_congr_left fun j _ => countP_outcome_import_element i j (fetch j)
      rw [hpt, sum_map_single ids (fun j => outcomeWeight (fetch j)) i hnd hi]
  · intro ids fetch sched T hT hnd
    unfold collection_importer_trace at hT
    obtain ⟨t, ht, rfl⟩ := Option.map_eq_some'.mp hT
    refine ⟨⟨t, rfl, ?_⟩, ?_⟩
    · rw [interleaveRun_countP isFinishedN sched _ t ht, List.map_map]
      apply List.sum_eq_zero
      intro y hy
      obtain ⟨j, hj, rfl⟩ := List.mem_map.mp hy
      exact countP_finished_coll_element j (fetch j)
    · intro i hi
      refine ⟨?_, ?_, ?_⟩
      · rw [List.countP_append]
        have hfin : List.countP (isSuccessFor i) ([Notif.finished] : List (Notif α)) = 0 := by
          simp [isSuccessFor, List.countP_cons]
        rw [hfin, Nat.add_zero, interleaveRun_countP (isSuccessFor i) sched _ t ht, List.map_map]
        have hpt : ids.map
            (List.countP (isSuccessFor i) ∘ fun j => collection_import_element j (fetch j)) =
            ids.map fun j => if j = i then (fun j => (fetch j).batches.length) j else 0 :=
          List.map_congr_left fun j _ => countP_success_coll_element i j (fetch j)
        rw [hpt, sum_map_single ids (fun j => (fetch j).batches.length) i hnd hi]
      · rw [List.countP_append]
        have hfin : List.countP (isFailureFor i) ([Notif.finished] : List (Notif α)) = 0 := by
          simp [isFailureFor, List.countP_cons]
        rw [hfin, Nat.add_zero, interleaveRun_countP (isFailureFor i) sched _ t ht, List.map_map]
        have hpt : ids.map
            (List.countP (isFailureFor i) ∘ fun j => collection_import_element j (fetch j)) =
            ids.map fun j => if j = i then (fun j => collFailWeight (fetch j).ending) j else 0 :=
          List.map_congr_left fun j _ => countP_failure_coll_element i j (fetch j)
        rw [hpt, sum_map_single ids (fun j => collFailWeight (fetch j).ending) i hnd hi]
      · rw [List.countP_append]
        have hfin : List.countP (isPartialFor i) ([Notif.finished] : List (Notif α)) = 0 := by
          simp [isPartialFor, List.countP_cons]
        rw [hfin, Nat.add_zero, interleaveRun_countP (isPartialFor i) sched _ t ht, List.map_map]
        have hpt : ids.map
            (List.countP (isPartialFor i) ∘ fun j => collection_import_element j (fetch j)) =
            ids.map fun j => if j = i then (fun _ => 1) j else 0 :=
          List.map_congr_left fun j _ => countP_partial_coll_element i j (fetch j)
        rw [hpt, sum_map_single ids (fun _ => 1) i hnd hi]

/-- Witness for C2 at a concrete input: two distinct ids, one fetch
succeeding and one observing cancellation, one schedule; the trace holds
exactly one outcome notification for the first id, none for the
cancelled one, and ends with the single finished notification. -/
theorem import_run_notification_counts_witness :
    importer_trace ["a", "b"]
        (fun i => if i = "a" then FetchOutcome.ok (0 : Nat) else FetchOutcome.cancel) [0] =
      some [Notif.success "a" 0, Notif.finished] ∧
    (["a", "b"] : List String).Nodup ∧
    ((∃ t, ([Notif.success "a" (0 : Nat), Notif.finished] : List (Notif Nat)) =
        t ++ [Notif.finished] ∧ t.countP isFinishedN = 0) ∧
      ∀ i ∈ ["a", "b"],
        ([Notif.success "a" (0 : Nat), Notif.finished] : List (Notif Nat)).countP
            (isOutcomeFor i) =
          outcomeWeight ((fun i => if i = "a" then FetchOutcome.ok (0 : Nat)
            else FetchOutcome.cancel) i)) :=
  ⟨rfl, by decide,
   (import_run_notification_counts Nat).1 ["a", "b"]
     (fun i => if i = "a" then FetchOutcome.ok (0 : Nat) else FetchOutcome.cancel) [0]
     [Notif.success "a" 0, Notif.finished] rfl (by decide)⟩

/-- Counterexample to C2 as stated: a CollectionImporter run (context
preparation succeeded, no cancellation) with the single id a whose fetch
yields two batches emits two success notifications for that id, not
exactly one outcome notification, so the claimed invariant fails for the
Collection variant. -/
theorem collection_two_batches_two_outcomes :
    collection_importer_trace ["a"] (fun _ => CollFetch.mk [1, 2] CollEnd.done) [0, 0, 0] =
      some [Notif.success "a" 1, Notif.success "a" 2, Notif.partiallyFinished "a",
        Notif.finished] ∧
    ([Notif.success "a" 1, Notif.success "a" 2, Notif.partiallyFinished "a",
        Notif.finished] : List (Notif Nat)).countP (isOutcomeFor "a") = 2 ∧
    ¬ ([Notif.success "a" 1, Notif.success "a" 2, Notif.partiallyFinished "a",
        Notif.finished] : List (Notif Nat)).countP (isOutcomeFor "a") = 1 :=
  ⟨rfl, rfl, by decide⟩

/-- Claim C4 (amended and proved).  send_request assigns ids starting at 1,
strictly monotonic and never reused, and registers a correlation entry
under the numeric id; when a Response arrives whose id matches a pending
entry, the entry is looked up and stays in the correlation table (the
source never removes it), and — provided the log-redaction step accepts
the payload — the awaiting future is resolved with the envelope result,
or, when the envelope carries a non-empty error object, rejected with an
error whose code, message and data default to 0, the empty string and
None when absent; two requests answered in reverse order each resolve
with their own matched result. -/
theorem send_request_response_correlation :
    (∀ (s : ConnState) (m : String) (p : JsonV) (sp : SParams),
       (send_request s m p sp).1.lastRequestId = s.lastRequestId + 1 ∧
       (send_request s m p sp).1.requestsFutures =
         s.requestsFutures ++ [(((s.lastRequestId + 1 : Nat) : Int), .pending, sp)] ∧
       ((∀ e ∈ s.requestsFutures, e.1 ≤ (s.lastRequestId : Int)) →
         findFuture s.requestsFutures ((s.lastRequestId : Int) + 1) = none)) ∧
    (∀ (s : ConnState) (idJ result error : JsonV) (n : Int) (sp : SParams),
       pyIntE idJ = .ok n →
       findFuture s.requestsFutures n = some (.pending, sp) →
       pyTruthy error = false →
       anonymise_sensitive_params result sp ≠ none →
       (handle_response s idJ result error).crash = none ∧
       (handle_response s idJ result error).writes = [] ∧
       findFuture (handle_response s idJ result error).state.requestsFutures n =
         some (.resolved result, sp)) ∧
    (∀ (s : ConnState) (idJ : JsonV) (efields : List (String × JsonV)) (n : Int)
       (sp : SParams),
       pyIntE idJ = .ok n →
       findFuture s.requestsFutures n = some (.pending, sp) →
       efields ≠ [] →
       anonymise_sensitive_params (getKeyD efields "data" .null) sp ≠ none →
       findFuture (handle_response s idJ (.obj []) (.obj efields)).state.requestsFutures n =
         some (.rejected (getKeyD efields "code" (.num 0)) (getKeyD efields "message" (.str ""))
           (getKeyD efields "data" .null), sp)) ∧
    (∀ (s : ConnState) (n₁ n₂ : Int) (r₁ r₂ : JsonV) (sp₁ sp₂ : SParams),
       n₁ ≠ n₂ →
       findFuture s.requestsFutures n₁ = some (.pending, sp₁) →
       findFuture s.requestsFutures n₂ = some (.pending, sp₂) →
       anonymise_sensitive_params r₁ sp₁ ≠ none →
       anonymise_sensitive_params r₂ sp₂ ≠ none →
       findFuture (handle_response (handle_response s (.num n₂) r₂ (.obj [])).state
           (.num n₁) r₁ (.obj [])).state.requestsFutures n₁ = some (.resolved r₁, sp₁) ∧
       findFuture (handle_response (handle_response s (.num n₂) r₂ (.obj [])).state
           (.num n₁) r₁ (.obj [])).state.requestsFutures n₂ = some (.resolved r₂, sp₂)) := by
  have hsuccess : ∀ (s : ConnState) (idJ result error : JsonV) (n : Int) (sp : SParams),
      pyIntE idJ = .ok n →
      findFuture s.requestsFutures n = some (.pending, sp) →
      pyTruthy error = false →
      anonymise_sensitive_params result sp ≠ none →
      (handle_response s idJ result error).crash = none ∧
      (handle_response s idJ result error).writes = [] ∧
      (handle_response s idJ result error).state.requestsFutures =
        setFuture s.requestsFutures n (.resolved result) := by
    intro s idJ result error n sp hid hfind htruthy hanon
    obtain ⟨a, ha⟩ := Option.ne_none_iff_exists'.mp hanon
    unfold handle_response
    rw [hid]
    simp only [hfind, htruthy, Bool.false_eq_true, if_false, ha]
    exact ⟨trivial, trivial, trivial⟩
  refine ⟨?_, ?_, ?_, ?_⟩
  · intro s m p sp
    refine ⟨?_, ?_, ?_⟩
    · cases ha : anonymise_sensitive_params p sp <;> simp [send_request, ha]
    · cases ha : anonymise_sensitive_params p sp <;> simp [send_request, ha]
    · intro hb
      exact findFuture_bounded_none (s.lastRequestId : Int) ((s.lastRequestId : Int) + 1)
        (by omega) s.requestsFutures hb
  · intro s idJ result error n sp hid hfind htruthy hanon
    obtain ⟨h1, h2, h3⟩ := hsuccess s idJ result error n sp hid hfind htruthy hanon
    refine ⟨h1, h2, ?_⟩
    rw [h3]
    exact findFuture_setFuture_self n (.resolved result) s.requestsFutures .pending sp hfind
  · intro s idJ efields n sp hid hfind hne hanon
    obtain ⟨a, ha⟩ := Option.ne_none_iff_exists'.mp hanon
    unfold handle_response
    rw [hid]
    have htruthy : pyTruthy (.obj efields) = true := by
      cases efields with
      | nil => exact absurd rfl hne
      | cons e rest => simp [pyTruthy]
    simp only [hfind, htruthy, if_true, ha]
    exact findFuture_setFuture_self n _ s.requestsFutures .pending sp hfind
  · intro s n₁ n₂ r₁ r₂ sp₁ sp₂ hne h₁ h₂ ha₁ ha₂
    have step₂ := hsuccess s (.num n₂) r₂ (.obj []) n₂ sp₂ rfl h₂ rfl ha₂
    have h₁' : findFuture (handle_response s (.num n₂) r₂ (.obj [])).state.requestsFutures n₁ =
        some (.pending, sp₁) := by
      rw [step₂.2.2, findFuture_setFuture_ne n₂ n₁ (.resolved r₂) hne]
      exact h₁
    have step₁ := hsuccess (handle_response s (.num n₂) r₂ (.obj [])).state
      (.num n₁) r₁ (.obj []) n₁ sp₁ rfl h₁' rfl ha₁
    constructor
    · rw [step₁.2.2]
      exact findFuture_setFuture_self n₁ (.resolved r₁) _ .pending sp₁ h₁'
    · rw [step₁.2.2, findFuture_setFuture_ne n₁ n₂ (.resolved r₁) (fun h => hne h.symm)]
      rw [step₂.2.2]
      exact findFuture_setFuture_self n₂ (.resolved r₂) s.requestsFutures .pending sp₂ h₂

/-- Connection after one send_request on a fresh connection, for the C4
concrete run: the table holds the pending entry keyed 1. -/
def c4conn : ConnState := (send_request initialConn "m" (.obj []) (.bool false)).1

/-- Response envelope answering request 1 with result 7. -/
def c4resp : JsonV := .obj [("jsonrpc", .str "2.0"), ("id", .str "1"), ("result", .num 7)]

/-- Counterexample to C4 as stated: after the matching response for the only
pending request is delivered and its future resolved, the correlation
table still holds the entry keyed 1 — the claim asserts the entry is
removed from the table, but the source looks it up with dict.get and
никогда pops it. -/
theorem correlation_entry_not_removed :
    (handle_input c4conn (some c4resp)).state.requestsFutures.map (fun e => e.1) = [(1 : Int)] ∧
    findFuture (handle_input c4conn (some c4resp)).state.requestsFutures 1 =
      some (.resolved (.num 7), .bool false) ∧
    ¬ (handle_input c4conn (some c4resp)).state.requestsFutures.map (fun e => e.1) = [] :=
  ⟨rfl, rfl, by decide⟩

/-- Witness for C4 at a concrete input: the first request gets id 1, and the
response with the stringified id 1 resolves its pending future with the
envelope result. -/
theorem send_request_response_correlation_witness :
    pyIntE (.str "1") = .ok 1 ∧
    findFuture c4conn.requestsFutures 1 = some (.pending, .bool false) ∧
    pyTruthy (.obj []) = false ∧
    anonymise_sensitive_params (.num 7) (.bool false) ≠ none ∧
    ((handle_response c4conn (.str "1") (.num 7) (.obj [])).crash = none ∧
     (handle_response c4conn (.str "1") (.num 7) (.obj [])).writes = [] ∧
     findFuture (handle_response c4conn (.str "1") (.num 7) (.obj [])).state.requestsFutures 1 =
       some (.resolved (.num 7), .bool false)) :=
  ⟨rfl, rfl, rfl, by simp [anonymise_sensitive_params],
   send_request_response_correlation.2.1 c4conn (.str "1") (.num 7) (.obj []) 1 (.bool false)
     rfl rfl rfl (by simp [anonymise_sensitive_params])⟩

/-- Reduction of handle_request at a string method name, exposing the
registry lookup as the outer scrutinee. -/
theorem handle_request_str (s : ConnState) (name : String) (params idJ : JsonV) :
    handle_request s (.str name) params idJ =
      (match lookupReg name s.methods with
       | none => ⟨s, [errorResponse idJ methodNotFoundE], none⟩
       | some h =>
         match anonymise_sensitive_params params h.sensitiveParams with
         | none => ⟨s, [], some .attributeError⟩
         | some _ =>
           match tryBind h params with
           | none =>
             if h.immediate then ⟨s, [errorResponse idJ invalidParamsE], some .unboundLocalError⟩
             else
               ⟨s, [errorResponse idJ invalidParamsE,
                    errorResponse idJ (unknownErrorE boundArgsNameErrorText)], none⟩
           | some args =>
             if h.immediate then
               match h.outcome args with
               | .returns v => ⟨s, [resultResponse idJ v], none⟩
               | o => ⟨s, [], some (escapedExc o)⟩
             else
               match h.outcome args with
               | .returns v => ⟨s, [resultResponse idJ v], none⟩
               | .notImplemented => ⟨s, [errorResponse idJ methodNotFoundE], none⟩
               | .rpcError c m d => ⟨s, [errorResponse idJ ⟨c, m, d⟩], none⟩
               | .cancelled => ⟨s, [errorResponse idJ abortedE], none⟩
               | .unexpected t => ⟨s, [errorResponse idJ (unknownErrorE t)], none⟩ :
        HandleOut) := rfl

/-- Claim C7 (confirmed).  Under the source invariant that business handlers
raise only ApplicationError values (whose constructor forbids codes in
the reserved range, so in particular the code -32601), a Request with an
id is answered with a MethodNotFound error Response keyed to that id in
exactly two cases: the method name is not in the registry, or the
registered deferred handler raises NotImplementedError. -/
theorem handle_request_method_not_found_iff (s : ConnState) (name : String)
    (params idJ : JsonV)
    (happ : ∀ h args c msg d, lookupReg name s.methods = some h →
      h.outcome args = .rpcError c msg d → c < -32768 ∨ -32000 < c) :
    (handle_request s (.str name) params idJ).writes = [errorResponse idJ methodNotFoundE] ↔
      (lookupReg name s.methods = none ∨
        ∃ h args, lookupReg name s.methods = some h ∧ h.immediate = false ∧
          tryBind h params = some args ∧ h.outcome args = .notImplemented) := by
  rw [handle_request_str]
  cases hl : lookupReg name s.methods with
  | none => simp
  | some h =>
    have hR : (some h = none ∨
        ∃ h₁ args₁, some h = some h₁ ∧ h₁.immediate = false ∧
          tryBind h₁ params = some args₁ ∧ h₁.outcome args₁ = HOutcome.notImplemented) ↔
        (∃ args₁, h.immediate = false ∧ tryBind h params = some args₁ ∧
          h.outcome args₁ = HOutcome.notImplemented) := by
      constructor
      · rintro (hno | ⟨h₁, args₁, hh, himm, hb₁, ho₁⟩)
        · exact Option.noConfusion hno
        · injection hh with hh
          subst hh
          exact ⟨args₁, himm, hb₁, ho₁⟩
      · rintro ⟨args₁, himm, hb₁, ho₁⟩
        exact Or.inr ⟨h, args₁, rfl, himm, hb₁, ho₁⟩
    rw [hR]
    cases ha : anonymise_sensitive_params params h.sensitiveParams with
    | none =>
      constructor
      · intro hw
        simp [ha] at hw
      · rintro ⟨args₁, himm, hb₁, ho₁⟩
        obtain ⟨fields, rfl⟩ := tryBind_some_obj h params args₁ hb₁
        obtain ⟨a, hsome⟩ := anonymise_obj_some fields h.sensitiveParams
        rw [hsome] at ha
        exact Option.noConfusion ha
    | some a =>
      cases hb : tryBind h params with
      | none =>
        cases himm : h.immediate with
        | true =>
          constructor
          · intro hw
            simp [ha, hb, himm, errorResponse, errJson, invalidParamsE, methodNotFoundE] at hw
          · rintro ⟨args₁, himm₁, hb₁, ho₁⟩
            exact Option.noConfusion hb₁
        | false =>
          constructor
          · intro hw
            simp [ha, hb, himm, errorResponse, errJson, invalidParamsE, unknownErrorE,
              methodNotFoundE] at hw
          · rintro ⟨args₁, himm₁, hb₁, ho₁⟩
            exact Option.noConfusion hb₁
      | some args =>
        have hR2 : (∃ args₁, h.immediate = false ∧ some args = some args₁ ∧
            h.outcome args₁ = HOutcome.notImplemented) ↔
            (h.immediate = false ∧ h.outcome args = HOutcome.notImplemented) := by
          constructor
          · rintro ⟨args₁, himm, hbeq, ho₁⟩
            injection hbeq with hbeq
            subst hbeq
            exact ⟨himm, ho₁⟩
          · rintro ⟨himm, ho₁⟩
            exact ⟨args, himm, rfl, ho₁⟩
        rw [hR2]
        cases himm : h.immediate with
        | true =>
          cases ho : h.outcome args with
          | returns v =>
            constructor
            · intro hw
              simp [ha, hb, himm, ho, resultResponse, errorResponse, errJson,
                methodNotFoundE] at hw
            · rintro ⟨h1, -⟩
              simp at h1
          | notImplemented =>
            constructor
            · intro hw
              simp [ha, hb, himm, ho] at hw
            · rintro ⟨h1, -⟩
              simp at h1
          | rpcError c msg d =>
            constructor
            · intro hw
              simp [ha, hb, himm, ho] at hw
            · rintro ⟨h1, -⟩
              simp at h1
          | cancelled =>
            constructor
            · intro hw
              simp [ha, hb, himm, ho] at hw
            · rintro ⟨h1, -⟩
              simp at h1
          | unexpected t =>
            constructor
            · intro hw
              simp [ha, hb, himm, ho] at hw
            · rintro ⟨h1, -⟩
              simp at h1
        | false =>
          cases ho : h.outcome args with
          | returns v =>
            constructor
            · intro hw
              simp [ha, hb, himm, ho, resultResponse, errorResponse, errJson,
                methodNotFoundE] at hw
            · rintro ⟨-, h2⟩
              simp at h2
          | notImplemented =>
            constructor
            · intro _
              exact ⟨rfl, rfl⟩
            · intro _
              simp [ha, hb, himm, ho]
          | rpcError c msg d =>
            constructor
            · intro hw
              have hc := happ h args c msg d hl ho
              simp [ha, hb, himm, ho, errorResponse, errJson, methodNotFoundE] at hw
              obtain ⟨hc1, -⟩ := hw
              rcases hc with hc | hc <;> omega
            · rintro ⟨-, h2⟩
              simp at h2
          | cancelled =>
            constructor
            · intro hw
              simp [ha, hb, himm, ho, errorResponse, errJson, abortedE, methodNotFoundE] at hw
            · rintro ⟨-, h2⟩
              simp at h2
          | unexpected t =>
            constructor
            · intro hw
              simp [ha, hb, himm, ho, errorResponse, errJson, unknownErrorE,
                methodNotFoundE] at hw
            · rintro ⟨-, h2⟩
              simp at h2

/-- Witness for C7 at a concrete input: on a connection with no registered
methods, a request for the method foo with id 1 is answered with the
MethodNotFound error keyed to that id, and the application-error side
condition holds vacuously. -/
theorem handle_request_method_not_found_iff_witness :
    (handle_request initialConn (.str "foo") (.obj []) (.str "1")).writes =
      [errorResponse (.str "1") methodNotFoundE] ∧
    lookupReg "foo" initialConn.methods = none :=
  ⟨(handle_request_method_not_found_iff initialConn "foo" (.obj []) (.str "1")
      (fun h args c msg d hl => by exact Option.noConfusion hl)).mpr (Or.inl rfl),
   rfl⟩
